import Mathlib

/-!
Verification of the job lifecycle and event-driven dispatch core of the
video-transcriber repository, against its natural-language specification.

The Python sources are shallowly embedded:
  * `src/common/common/job_queue.py`        — job store transitions
  * `src/services/api-service/api/routes/api.py` — the retry endpoint
  * `src/common/messaging.py`               — payload truncation, subscriber ack
  * `src/services/transcription-service/transcription/queue_manager.py`
                                            — dedup worker pool
  * `src/services/transcription-service/transcription/main.py`
                                            — event-based dispatch worker
  * `src/services/transcription-service/transcription/transcription_worker.py`
                                            — model lock discipline
  * `src/services/transcription-service/transcription/api_client.py`
                                            — update_job_status_api

Python `str` values are modelled as `String` (ids, keys) or as `List Char`
(code-point sequences, where exact lengths matter); `datetime` timestamps and
float durations are modelled as `ℚ`; fallible calls return `Except`/`Option`.
-/

/-- Job status enum: the `status` column of the job tables
(`pending`, `processing`, `completed`, `failed`). -/
inductive JobStatus where
  | pending
  | processing
  | completed
  | failed
deriving DecidableEq, Repr

/-- A job row (`TranscriptionJob` and the structurally identical kinds in
`src/common/common/models.py`): id, upstream reference, status, the three
timestamps, processing duration and structured error details.  Timestamps and
durations are rationals; `started_at`/`completed_at`/`processing_time_seconds`/
`error_details` are nullable columns. -/
structure Job where
  id : String
  video_id : String
  status : JobStatus
  created_at : ℚ
  started_at : Option ℚ
  completed_at : Option ℚ
  processing_time_seconds : Option ℚ
  error_details : Option String
deriving DecidableEq, Repr

/-- `job_queue.mark_job_started`: sets `status = "processing"` and
`started_at = datetime.utcnow()` (the wall clock `now` is passed explicitly).
No precondition on the current status is checked. -/
def mark_job_started (job : Job) (now : ℚ) : Job :=
  { job with status := .processing, started_at := some now }

/-- `job_queue.mark_job_completed`: sets `status = "completed"`,
`completed_at = datetime.utcnow()` and `processing_time_seconds` to the value
passed by the caller.  No precondition on the current status is checked. -/
def mark_job_completed (job : Job) (processing_time : ℚ) (now : ℚ) : Job :=
  { job with status := .completed, completed_at := some now,
             processing_time_seconds := some processing_time }

/-- `job_queue.mark_job_failed`: sets `status = "failed"`,
`completed_at = datetime.utcnow()` and `error_details`.  No precondition on the
current status is checked. -/
def mark_job_failed (job : Job) (error_details : String) (now : ℚ) : Job :=
  { job with status := .failed, completed_at := some now,
             error_details := some error_details }

/-- The body of the `/transcription-jobs/{job_id}/retry` route
(`api/routes/api.py` lines 504-514) applied to the looked-up row: a job whose
status is not `"failed"` yields an HTTP 400 error; otherwise the status is
reset to `"pending"` and `started_at`, `completed_at`,
`processing_time_seconds`, `error_details` are all cleared. -/
def retry_reset (job : Job) : Except Nat Job :=
  if job.status ≠ .failed then
    .error 400
  else
    .ok { job with status := .pending, started_at := none, completed_at := none,
                   processing_time_seconds := none, error_details := none }

/-- The full `retry_transcription_job` endpoint over a database modelled as a
list of rows: a missing id yields HTTP 404, a non-failed job HTTP 400, and
otherwise the row is reset in place. -/
def retry_transcription_job (db : List Job) (job_id : String) :
    Except Nat (List Job) :=
  match db.find? (fun j => j.id == job_id) with
  | none => .error 404
  | some job =>
    match retry_reset job with
    | .error e => .error e
    | .ok _ => .ok (db.map (fun j => if j.id == job_id then
        { j with status := .pending, started_at := none, completed_at := none,
                 processing_time_seconds := none, error_details := none }
      else j))

/-- The job-store operations a job row is subject to, as invoked by the
workers and the API routes. -/
inductive StoreOp where
  | markStarted (now : ℚ)
  | markCompleted (processing_time now : ℚ)
  | markFailed (error_details : String) (now : ℚ)
  | retry
deriving DecidableEq, Repr

/-- Effect of one store operation on one job row.  A rejected retry (HTTP 400)
does not commit, so the row is unchanged. -/
def applyStoreOp (job : Job) (op : StoreOp) : Job :=
  match op with
  | .markStarted now => mark_job_started job now
  | .markCompleted t now => mark_job_completed job t now
  | .markFailed e now => mark_job_failed job e now
  | .retry =>
    match retry_reset job with
    | .ok j2 => j2
    | .error _ => job

/-- Position of a status along the chain `pending → processing → terminal`. -/
def statusRank : JobStatus → Nat
  | .pending => 0
  | .processing => 1
  | .completed => 2
  | .failed => 2

/-- One observed status change is consistent with the claimed chain
`pending → processing → {completed | failed}` when the status is unchanged or
moves strictly forward along the chain (skips allowed; `completed` and
`failed` are distinct terminals, so neither may turn into the other). -/
def chainStep (s s2 : JobStatus) : Prop :=
  s = s2 ∨ statusRank s < statusRank s2

instance (s s2 : JobStatus) : Decidable (chainStep s s2) := by
  unfold chainStep; infer_instance

/-- The status-transition relation asserted by the spec: every operation takes
a chain step, except that the explicit retry may take `failed` back to
`pending`. -/
def claimedStatusStep (s : JobStatus) (op : StoreOp) (s2 : JobStatus) : Prop :=
  chainStep s s2 ∨ (op = .retry ∧ s = .failed ∧ s2 = .pending)

instance (s : JobStatus) (op : StoreOp) (s2 : JobStatus) :
    Decidable (claimedStatusStep s op s2) := by
  unfold claimedStatusStep; infer_instance

/-- The call discipline the workers follow: a job is started only while
pending and completed/failed only while processing; retry carries its own
status guard inside `retry_reset`. -/
def storeOpPrecond (job : Job) (op : StoreOp) : Prop :=
  match op with
  | .markStarted _ => job.status = .pending
  | .markCompleted _ _ => job.status = .processing
  | .markFailed _ _ => job.status = .processing
  | .retry => True

instance (job : Job) (op : StoreOp) : Decidable (storeOpPrecond job op) := by
  unfold storeOpPrecond; cases op <;> infer_instance

/-- A concrete already-completed job row, used to exhibit that the store
transitions are not guarded. -/
def completedJobCx : Job :=
  { id := "J1", video_id := "V1", status := .completed, created_at := 0,
    started_at := some 1, completed_at := some 3,
    processing_time_seconds := some 2, error_details := none }

/-- `ORDER BY created_at ... first()` over a result list: the first row (in
table order, mirroring a stable ascending sort) among those with the smallest
`created_at`. -/
def firstByCreatedAt : List Job → Option Job
  | [] => none
  | j :: js =>
    some (js.foldl (fun best k =>
      if k.created_at < best.created_at then k else best) j)

/-- `job_queue.get_next_transcription_job`: filter the table to
`status == "pending"`, order ascending by `created_at`, take the first row;
`None` when the filtered set is empty. -/
def get_next_transcription_job (db : List Job) : Option Job :=
  firstByCreatedAt (db.filter (fun j => j.status == .pending))

/-!
## Queue manager (`queue_manager.py`, class `TranscriptionQueueManager`)

`job_queue` is the FIFO `queue.Queue` of job descriptors (modelled by their
ids), `active_jobs` the dict keyed by job id (modelled as its key list), and
`inflight` the ids that a worker thread has popped and is currently running
`job_processor` on (between `job_queue.get` and the removal from
`active_jobs`).  `add_job`'s check-and-insert runs under `self.lock`, and the
`queue.Queue` operations are themselves atomic, so each of the three
transitions below is one atomic step of the real program.
-/

structure QMState where
  job_queue : List String
  active_jobs : List String
  inflight : List String
deriving DecidableEq, Repr

/-- `TranscriptionQueueManager.add_job` (lines 83-104): a job without an id is
rejected; a job whose id is already in `active_jobs` (queued or being
processed) is a logged no-op; otherwise the descriptor is enqueued and the id
recorded in `active_jobs`.  All under `self.lock`. -/
def add_job (s : QMState) (job_id : Option String) : QMState :=
  match job_id with
  | none => s
  | some id =>
    if id ∈ s.active_jobs then s
    else { s with job_queue := s.job_queue ++ [id],
                  active_jobs := s.active_jobs ++ [id] }

/-- A worker thread pops the head of the FIFO queue
(`self.job_queue.get(timeout=1)`) and begins running `job_processor` on it:
the id moves from the queue to the in-flight set.  `active_jobs` is untouched
until processing finishes. -/
def worker_take (s : QMState) (id : String) (rest : List String) : QMState :=
  { s with job_queue := rest, inflight := s.inflight ++ [id] }

/-- The three ways `job_processor(job_id)` can come back to `_worker_thread`
(lines 143-155): it returns `True`, returns `False` (a failure the processor
already recorded), or raises an exception that the inner
`except Exception` swallows. -/
inductive ProcOutcome where
  | success
  | handledFailure
  | raised
deriving DecidableEq, Repr

/-- The tail of one `_worker_thread` iteration after `job_processor` comes
back (lines 157-163): under `self.lock`, the id is deleted from `active_jobs`
if present (one occurrence removed), the id leaves the in-flight set, and
`task_done` is called. -/
def finish_job (s : QMState) (id : String) : QMState :=
  { s with active_jobs := s.active_jobs.erase id,
           inflight := s.inflight.erase id }

/-- One `_worker_thread` iteration from the point `job_processor(job_id)` is
invoked: each of the three outcomes only changes what is logged — all of them
fall through to the unconditional removal from `active_jobs`, and the thread
continues its `while self.running` loop (`true` in the second component)
rather than dying. -/
def worker_process_job (s : QMState) (job_id : String) (outcome : ProcOutcome) :
    QMState × Bool :=
  match outcome with
  | .success => (finish_job s job_id, true)
  | .handledFailure => (finish_job s job_id, true)
  | .raised => (finish_job s job_id, true)

/-- The atomic transitions of the queue manager. -/
inductive QMStep : QMState → QMState → Prop
  | add (s : QMState) (job_id : Option String) : QMStep s (add_job s job_id)
  | take (s : QMState) (id : String) (rest : List String) :
      s.job_queue = id :: rest → QMStep s (worker_take s id rest)
  | finish (s : QMState) (id : String) (outcome : ProcOutcome) :
      id ∈ s.inflight → QMStep s (worker_process_job s id outcome).1

/-- Initial state of a freshly constructed `TranscriptionQueueManager`:
empty queue, empty `active_jobs`, nothing in flight. -/
def QMInit : QMState := { job_queue := [], active_jobs := [], inflight := [] }

/-- States the queue manager can actually be in. -/
def QMReachable (s : QMState) : Prop :=
  Relation.ReflTransGen QMStep QMInit s

/-- The dedup invariant: the queue holds no duplicate ids, no id is in flight
twice, no id is both queued and in flight, `active_jobs` has no duplicate
keys (it is a dict), and `active_jobs` holds exactly the ids that are queued
or in flight. -/
def QMInv (s : QMState) : Prop :=
  s.job_queue.Nodup ∧ s.inflight.Nodup ∧
  (∀ id : String, ¬(id ∈ s.job_queue ∧ id ∈ s.inflight)) ∧
  s.active_jobs.Nodup ∧
  ∀ id : String, id ∈ s.active_jobs ↔ id ∈ s.job_queue ∨ id ∈ s.inflight

/-!
## Event bus client (`src/common/messaging.py`, class `RabbitMQClient`)

Python strings are modelled here as `List Char` (sequences of code points),
so Python's `len`, slicing and concatenation are `List.length`, `List.take`
and `++`.  A payload is a JSON dict; the shapes `publish_event` inspects are
string and number fields plus one level of nested dict (`error_details`), so
the value model is restricted to those.
-/

/-- A primitive JSON value inside a nested dict field. -/
inductive JPrim where
  | str (s : List Char)
  | num (n : Int)
deriving DecidableEq, Repr

/-- A top-level JSON value of an event payload: a string, a number, or a flat
dict of primitives (the shape of `error_details`). -/
inductive JVal where
  | str (s : List Char)
  | num (n : Int)
  | obj (fields : List (List Char × JPrim))
deriving DecidableEq, Repr

/-- An event payload: `Dict[str, Any]` with the value shapes above.  Keys are
unique in a Python dict. -/
def Payload : Type := List (List Char × JVal)

/-- Lower-case hex digit, as produced by `json.dumps` for escapes. -/
def hexDigitChar (n : Nat) : Char :=
  if n < 10 then Char.ofNat (48 + n) else Char.ofNat (87 + n)

/-- Four hex digits of a (≤ 16-bit) code unit. -/
def hex4 (n : Nat) : List Char :=
  [hexDigitChar (n / 4096 % 16), hexDigitChar (n / 256 % 16),
   hexDigitChar (n / 16 % 16), hexDigitChar (n % 16)]

/-- How `json.dumps` (default `ensure_ascii=True`) renders one character of a
string: backslash and quote are backslash-escaped, the five short control
escapes apply, all other characters outside `0x20..0x7e` become `\uXXXX`
(surrogate pairs above `0xFFFF`), and printable ASCII passes through. -/
def json_escape_char (c : Char) : List Char :=
  if c = '\\' then ['\\', '\\']
  else if c = '\"' then ['\\', '\"']
  else if c = '\x08' then ['\\', 'b']
  else if c = '\x0c' then ['\\', 'f']
  else if c = '\n' then ['\\', 'n']
  else if c = '\r' then ['\\', 'r']
  else if c = '\t' then ['\\', 't']
  else if c.toNat < 32 ∨ c.toNat > 126 then
    if c.toNat < 65536 then '\\' :: 'u' :: hex4 c.toNat
    else
      ('\\' :: 'u' :: hex4 (55296 + (c.toNat - 65536) / 1024)) ++
        ('\\' :: 'u' :: hex4 (56320 + (c.toNat - 65536) % 1024))
  else [c]

/-- `json.dumps` escaping of a whole string (without the quotes). -/
def json_escape (s : List Char) : List Char :=
  (s.map json_escape_char).flatten

/-- A JSON string literal: quotes around the escaped characters. -/
def json_dumps_str (s : List Char) : List Char :=
  '\"' :: json_escape s ++ ['\"']

/-- Serialization of a primitive value. -/
def json_dumps_prim : JPrim → List Char
  | .str s => json_dumps_str s
  | .num n => (toString n).data

/-- Serialization of a flat dict with `json.dumps` default separators
`(", ", ": ")`. -/
def json_dumps_fields (fs : List (List Char × JPrim)) : List Char :=
  '\x7b' :: List.intercalate [',', ' ']
      (fs.map (fun kv => json_dumps_str kv.1 ++ ':' :: ' ' :: json_dumps_prim kv.2))
    ++ ['\x7d']

/-- Serialization of a top-level payload value. -/
def json_dumps_val : JVal → List Char
  | .str s => json_dumps_str s
  | .num n => (toString n).data
  | .obj fs => json_dumps_fields fs

/-- `json.dumps(payload)` for an event payload. -/
def json_dumps_payload (p : Payload) : List Char :=
  '\x7b' :: List.intercalate [',', ' ']
      (p.map (fun kv => json_dumps_str kv.1 ++ ':' :: ' ' :: json_dumps_val kv.2))
    ++ ['\x7d']

/-- The fixed truncation marker appended by `publish_event`. -/
def truncated_marker : List Char := "... (truncated)".data

/-- `payload["traceback"][:1000] + "... (truncated)"`. -/
def truncate_traceback (s : List Char) : List Char :=
  s.take 1000 ++ truncated_marker

/-- The key `"traceback"`. -/
def tracebackKey : List Char := "traceback".data

/-- The key `"error_details"`. -/
def errorDetailsKey : List Char := "error_details".data

/-- Truncation of a top-level `traceback` value.  The source slices the value
unconditionally, which only succeeds for a string; non-string values are left
untouched here (in Python they would raise a `TypeError`). -/
def truncate_tb_val : JVal → JVal
  | .str s => .str (truncate_traceback s)
  | v => v

/-- Truncation of `payload["error_details"]["traceback"]`, applied only when
`error_details` is a dict (`isinstance(..., dict)`) containing the key. -/
def truncate_error_details : JVal → JVal
  | .obj fs =>
    .obj (fs.map (fun kv =>
      if kv.1 = tracebackKey then
        (kv.1, match kv.2 with
               | .str s => JPrim.str (truncate_traceback s)
               | v => v)
      else kv))
  | v => v

/-- The payload mutation performed by `publish_event` when the serialized
message exceeds 100000 characters (lines 127-133 of `messaging.py`): the
top-level `traceback` field, if present, and `error_details["traceback"]`, if
`error_details` is a dict containing it, are cut to their first 1000
characters plus the marker.  No other field is touched. -/
def truncate_payload (p : Payload) : Payload :=
  let p1 :=
    if (List.lookup tracebackKey p).isSome then
      p.map (fun kv => if kv.1 = tracebackKey then (kv.1, truncate_tb_val kv.2) else kv)
    else p
  if (List.lookup errorDetailsKey p1).isSome then
    p1.map (fun kv =>
      if kv.1 = errorDetailsKey then (kv.1, truncate_error_details kv.2) else kv)
  else p1

/-- The message body `publish_event` hands to `basic_publish` (lines
124-145): serialize; if longer than the 100 KB limit, apply the traceback
truncation and re-serialize; publish the result in either case — it is never
dropped, and its size is not re-checked after truncation. -/
def publish_event_message (payload : Payload) : List Char :=
  let message := json_dumps_payload payload
  if message.length > 100000 then json_dumps_payload (truncate_payload payload)
  else message

/-- A Python exception, abstracted to its message. -/
structure PyErr where
  msg : String
deriving DecidableEq, Repr

/-- What the consumer does with a delivery. -/
inductive AckAction where
  | ack
  | nackRequeue
deriving DecidableEq, Repr

/-- The `message_handler` closure installed by
`RabbitMQClient.subscribe_to_event` (lines 183-197): parse the body as JSON,
invoke the caller's callback, then `basic_ack`; if parsing or the callback
raises, log and `basic_nack(requeue=True)`.  The handler itself always
returns — the exception never escapes into the consume loop. -/
def message_handler {M : Type} (parse_json : List Char → Except PyErr M)
    (callback : M → Except PyErr Unit) (body : List Char) : AckAction :=
  match parse_json body with
  | .error _ => .nackRequeue
  | .ok message =>
    match callback message with
    | .ok _ => .ack
    | .error _ => .nackRequeue

/-!
## Model lock discipline (`transcription_worker.py`)

`_model_lock` is one `threading.Lock` shared by all pool threads.  A thread
running `process_transcription_job` passes through `transcribe_with_whisperx`:
it first calls `get_whisperx_model()` (which holds `_model_lock` while the
singleton loads), then extracts audio with no lock held, then enters
`with _model_lock:` for the whole inference block (`load_audio`, `transcribe`,
alignment, diarization) and releases on exit, then runs the `finally` cleanup.
Each phase change below is one thread's atomic observable step; the lock
acquisition blocks until no other thread owns the lock.
-/

/-- Where a pool thread is inside `transcribe_with_whisperx`. -/
inductive WorkerPhase where
  | idle
  | loadingModel
  | preparing
  | inference
  | cleanup
deriving DecidableEq, Repr

/-- The pool: who owns `_model_lock`, and each thread's phase (threads are
numbered; unused thread ids just stay `idle`). -/
structure PoolState where
  lockOwner : Option Nat
  phase : Nat → WorkerPhase

/-- All threads start in the pool loop, the lock free. -/
def PoolInit : PoolState := { lockOwner := none, phase := fun _ => .idle }

/-- Interleaved execution of the pool threads.  A thread acquires
`_model_lock` only when no one owns it (`threading.Lock`), holds it through
the model-loading block and again through the entire inference block, and
releases it when leaving each `with` block. -/
inductive PoolStep : PoolState → PoolState → Prop
  | beginJob (s : PoolState) (t : Nat) : s.phase t = .idle → s.lockOwner = none →
      PoolStep s { lockOwner := some t, phase := Function.update s.phase t .loadingModel }
  | modelLoaded (s : PoolState) (t : Nat) : s.phase t = .loadingModel →
      PoolStep s { lockOwner := none, phase := Function.update s.phase t .preparing }
  | acquireForInference (s : PoolState) (t : Nat) :
      s.phase t = .preparing → s.lockOwner = none →
      PoolStep s { lockOwner := some t, phase := Function.update s.phase t .inference }
  | releaseAfterInference (s : PoolState) (t : Nat) : s.phase t = .inference →
      PoolStep s { lockOwner := none, phase := Function.update s.phase t .cleanup }
  | endJob (s : PoolState) (t : Nat) : s.phase t = .cleanup →
      PoolStep s { s with phase := Function.update s.phase t .idle }

/-- Pool states actually reachable from process start, for any number of
threads and any interleaving. -/
def PoolReachable (s : PoolState) : Prop :=
  Relation.ReflTransGen PoolStep PoolInit s

/-- The lock invariant: a thread inside either `with _model_lock:` block owns
the lock. -/
def PoolInv (s : PoolState) : Prop :=
  ∀ t : Nat, s.phase t = .loadingModel ∨ s.phase t = .inference →
    s.lockOwner = some t

/-!
## Event-based dispatch worker (`main.py`, `run_event_based_worker`)
-/

/-- The keyword parameters accepted by `TranscriptionQueueManager.__init__`
(`queue_manager.py` line 21): only `max_workers` (besides `self`). -/
def tqm_init_params : List String := ["max_workers"]

/-- The keyword arguments `run_event_based_worker` (and `run_polling_worker`)
pass to the constructor (`main.py` lines 139 and 197). -/
def run_event_based_worker_init_kwargs : List String := ["max_workers", "poll_interval"]

/-- Number of arguments `TranscriptionQueueManager.start` accepts after
`self` (`queue_manager.py` line 38): just `job_processor`. -/
def tqm_start_arity : Nat := 1

/-- Number of arguments `main.py` line 140 passes to `queue_manager.start`:
`process_transcription_job` and `get_next_transcription_job_api`. -/
def run_event_based_worker_start_args : Nat := 2

/-- Python call semantics: a call raises `TypeError` when it passes a keyword
argument the callee does not accept. -/
def call_raises_type_error (params kwargs : List String) : Bool :=
  !(kwargs.all params.contains)

/-- Observable outcome of one run of the dispatch worker entry point. -/
structure DispatchRunResult where
  raised : Bool
  init_type_error : Bool
  queue_manager_running : Bool
  processed : List String
  store : List Job
deriving DecidableEq, Repr

/-- `run_event_based_worker` (lines 125-181) in the scenario in which every
Event Bus connection attempt raises.  The body is one `try`: the first
statement constructs `TranscriptionQueueManager(max_workers=...,
poll_interval=...)`; if that call raises `TypeError` (an unexpected keyword),
control jumps to `except Exception` — `queue_manager` is still `None`, so
only `rabbitmq_client.close()` runs and the function returns.  Otherwise
`queue_manager.start(...)` would run and `rabbitmq_client.connect()` would
raise after its bounded retries, and the same `except Exception` handler
stops the queue manager and closes the client.  On both paths the function
returns normally with no job handed to `process_transcription_job` and the
job store untouched. -/
def run_event_based_worker_connect_failing (store : List Job) : DispatchRunResult :=
  if call_raises_type_error tqm_init_params run_event_based_worker_init_kwargs then
    { raised := false, init_type_error := true, queue_manager_running := false,
      processed := [], store := store }
  else
    { raised := false, init_type_error := false, queue_manager_running := false,
      processed := [], store := store }

/-- A fresh pending row for the degradation scenario. -/
def pendingJob (jid vid : String) (created : ℚ) : Job :=
  { id := jid, video_id := vid, status := .pending, created_at := created,
    started_at := none, completed_at := none,
    processing_time_seconds := none, error_details := none }

/-- The spec's degradation scenario: three jobs pre-inserted as pending. -/
def pendingScenarioDb : List Job :=
  [pendingJob "J1" "V1" 0, pendingJob "J2" "V2" 1, pendingJob "J3" "V3" 2]

/-!
## `update_job_status_api` (`api_client.py` lines 154-190, and the identical
`processor.py` lines 90-133)
-/

/-- The request body sent to the status route. -/
inductive UpdateBody where
  | complete (processing_time : Option ℚ)
  | fail (error_details : String)
  | start
deriving DecidableEq, Repr

/-- URL and body chosen by `update_job_status_api` from the target status:
`"completed"` posts to `/complete`, `"failed"` posts to `/fail` with
`error_details or {"error": "Unknown error"}`, anything else posts to
`/start` with an empty body. -/
def update_request (job_id status : String) (processing_time : Option ℚ)
    (error_details : Option String) : String × UpdateBody :=
  if status == "completed" then
    ("/transcription-jobs/" ++ job_id ++ "/complete", .complete processing_time)
  else if status == "failed" then
    ("/transcription-jobs/" ++ job_id ++ "/fail",
      .fail (error_details.getD "Unknown error"))
  else
    ("/transcription-jobs/" ++ job_id ++ "/start", .start)

/-- The two external effects `update_job_status_api` performs, each of which
may raise: the job-store POST (`api_request`), and the connect-publish-close
sequence against the Event Bus. -/
structure UpdateEnv where
  post_result : String × UpdateBody → Except PyErr Job
  publish_result : Except PyErr Unit

/-- The `try` body of `update_job_status_api`: POST the status change (a
failure raises out of this body), then attempt the `job.status.changed`
publish inside its own inner `try` whose `except` only logs — the updated job
is returned whether or not the publish raised. -/
def update_job_status_api_try (env : UpdateEnv) (job_id status : String)
    (processing_time : Option ℚ) (error_details : Option String) :
    Except PyErr Job := do
  let job ← env.post_result (update_request job_id status processing_time error_details)
  match env.publish_result with
  | .ok _ => pure job
  | .error _ => pure job

/-- `update_job_status_api`: the whole body sits in a `try` whose
`except Exception` logs and returns `None` — the function itself never
raises. -/
def update_job_status_api (env : UpdateEnv) (job_id status : String)
    (processing_time : Option ℚ) (error_details : Option String) : Option Job :=
  match update_job_status_api_try env job_id status processing_time error_details with
  | .ok job => some job
  | .error _ => none

/-- The start of `process_transcription_job` (`transcription_worker.py` lines
413-421): fetch the job (`get_job_from_api` re-raises, jumping to the
`except` branch that marks the job failed and returns `False`), then call
`update_job_status_api(job_id, "processing")` discarding its result, and
continue with the rest of the pipeline (`true`) regardless of whether the
mark-started call took effect. -/
def process_transcription_job_start_phase (env : UpdateEnv)
    (get_job : Except PyErr Job) (job_id : String) : Bool :=
  match get_job with
  | .error _ => false
  | .ok _ =>
    let _started := update_job_status_api env job_id "processing" none none
    true

/-!
## Concrete inputs used by counterexamples and witnesses
-/

/-- A job in `processing` with `started_at = 0`. -/
def startedJobCx : Job :=
  { id := "J1", video_id := "V1", status := .processing, created_at := 0,
    started_at := some 0, completed_at := none,
    processing_time_seconds := none, error_details := none }

/-- A failed job with every post-start field populated. -/
def failedJobCx : Job :=
  { id := "J2", video_id := "V2", status := .failed, created_at := 0,
    started_at := some 1, completed_at := some 2,
    processing_time_seconds := some 1, error_details := some "boom" }

/-- An oversized payload whose large string sits under a key other than
`traceback`: serialized, it is 100012 characters long. -/
def publishCex : Payload :=
  [("foo".data, JVal.str (List.replicate 100001 'a'))]

/-- An oversized payload whose large string is the `traceback` field. -/
def tracebackPayload (n : Nat) : Payload :=
  [(tracebackKey, JVal.str (List.replicate n 'a'))]

/-- A small queue-manager state: job `"a"` queued and active. -/
def qmStateA : QMState :=
  { job_queue := ["a"], active_jobs := ["a"], inflight := [] }

/-- A small queue-manager state: job `"a"` in flight and active. -/
def qmStateInflightA : QMState :=
  { job_queue := [], active_jobs := ["a"], inflight := ["a"] }

/-- The pool state after thread 0 loads the model, prepares, and acquires
`_model_lock` for inference. -/
def poolWitnessState : PoolState :=
  { lockOwner := some 0,
    phase := Function.update (Function.update (Function.update
      (fun _ => WorkerPhase.idle) 0 .loadingModel) 0 .preparing) 0 .inference }

/-- An environment in which both the store POST and the publish succeed. -/
def updateEnvOk : UpdateEnv :=
  { post_result := fun _ => .ok startedJobCx, publish_result := .ok () }

/-- An environment in which the store POST succeeds but the Event Bus
publish raises. -/
def updateEnvBusDown : UpdateEnv :=
  { post_result := fun _ => .ok startedJobCx,
    publish_result := .error { msg := "bus down" } }

/-- An environment in which the store POST raises. -/
def updateEnvStoreDown : UpdateEnv :=
  { post_result := fun _ => .error { msg := "store down" },
    publish_result := .ok () }

/-!
# Theorems
-/

/-- C4: for every message delivered to a queue created by
`subscribe_to_event`, the installed handler parses the body as JSON and
invokes the caller's callback; if the callback returns normally the message
is acknowledged, and if JSON parsing or the callback raises any exception the
message is negatively acknowledged with requeue — it is never acknowledged as
consumed, and the exception does not propagate out of the consumer loop (the
handler always returns one of the two acknowledgement actions). -/
theorem C4_subscriber_ack_contract :
    (∀ (M : Type) (parse : List Char → Except PyErr M)
        (cb : M → Except PyErr Unit) (body : List Char) (m : M),
        parse body = .ok m → cb m = .ok () →
          message_handler parse cb body = .ack)
  ∧ (∀ (M : Type) (parse : List Char → Except PyErr M)
        (cb : M → Except PyErr Unit) (body : List Char) (e : PyErr),
        parse body = .error e → message_handler parse cb body = .nackRequeue)
  ∧ (∀ (M : Type) (parse : List Char → Except PyErr M)
        (cb : M → Except PyErr Unit) (body : List Char) (m : M) (e : PyErr),
        parse body = .ok m → cb m = .error e →
          message_handler parse cb body = .nackRequeue)
  ∧ (∀ (M : Type) (parse : List Char → Except PyErr M)
        (cb : M → Except PyErr Unit) (body : List Char),
        message_handler parse cb body = .ack ∨
          message_handler parse cb body = .nackRequeue) := by
  refine ⟨?_, ?_, ?_, ?_⟩
  · intro M parse cb body m hp hc
    simp [message_handler, hp, hc]
  · intro M parse cb body e hp
    simp [message_handler, hp]
  · intro M parse cb body m e hp hc
    simp [message_handler, hp, hc]
  · intro M parse cb body
    unfold message_handler
    rcases parse body with e | m
    · right; rfl
    · rcases h : cb m with e | u
      · right; simp [h]
      · left; simp [h]

/-- Witness for C4 at concrete inputs: a parse-and-callback success is
acknowledged, and a failing callback is nack-requeued. -/
theorem C4_subscriber_ack_contract_witness :
    message_handler (fun _ => Except.ok ()) (fun _ : Unit => Except.ok ()) [] =
        AckAction.ack
    ∧ message_handler (fun _ => Except.ok ())
        (fun _ : Unit => Except.error { msg := "cb" }) [] = AckAction.nackRequeue :=
  ⟨C4_subscriber_ack_contract.1 Unit _ _ [] () rfl rfl,
   C4_subscriber_ack_contract.2.2.1 Unit _ _ [] () { msg := "cb" } rfl rfl⟩

/-- C8: for every job pulled from the queue by a pool worker, the job's id is
removed from `active_jobs` after `job_processor` finishes, in all three
outcomes (success, handled failure, unhandled exception), the id is no longer
active afterwards, and the worker thread returns to its pool loop. -/
theorem C8_unconditional_active_cleanup :
    ∀ (s : QMState) (job_id : String) (outcome : ProcOutcome),
      (worker_process_job s job_id outcome).1.active_jobs
          = s.active_jobs.erase job_id
      ∧ (worker_process_job s job_id outcome).2 = true
      ∧ (s.active_jobs.Nodup →
          job_id ∉ (worker_process_job s job_id outcome).1.active_jobs) := by
  intro s job_id outcome
  cases outcome <;>
    exact ⟨rfl, rfl, fun h => by
      simpa [worker_process_job, finish_job] using h.not_mem_erase⟩

/-- Witness for C8: in a state where `"a"` is active and in flight, a raising
`job_processor` still leads to `"a"` being removed from the active set. -/
theorem C8_unconditional_active_cleanup_witness :
    (worker_process_job qmStateInflightA "a" .raised).1.active_jobs
        = qmStateInflightA.active_jobs.erase "a"
    ∧ (worker_process_job qmStateInflightA "a" .raised).2 = true
    ∧ "a" ∉ (worker_process_job qmStateInflightA "a" .raised).1.active_jobs :=
  ⟨(C8_unconditional_active_cleanup qmStateInflightA "a" .raised).1,
   (C8_unconditional_active_cleanup qmStateInflightA "a" .raised).2.1,
   (C8_unconditional_active_cleanup qmStateInflightA "a" .raised).2.2 (by decide)⟩

/-- C10 (implicit): `update_job_status_api` never raises — it returns the
updated job whenever the job-store POST succeeds (whatever the Event Bus
publish does, including when it raises), returns `None` whenever the POST
raises, and the caller `process_transcription_job` continues processing
(`true`) after the mark-started call regardless of that result. -/
theorem C10_update_job_status_api_never_raises :
    (∀ (env : UpdateEnv) (job_id status : String) (pt : Option ℚ)
        (ed : Option String) (job : Job),
        env.post_result (update_request job_id status pt ed) = .ok job →
          update_job_status_api env job_id status pt ed = some job)
  ∧ (∀ (env : UpdateEnv) (job_id status : String) (pt : Option ℚ)
        (ed : Option String) (e : PyErr),
        env.post_result (update_request job_id status pt ed) = .error e →
          update_job_status_api env job_id status pt ed = none)
  ∧ (∀ (env : UpdateEnv) (job : Job) (job_id : String),
        process_transcription_job_start_phase env (.ok job) job_id = true)
  ∧ (∀ (env : UpdateEnv) (e : PyErr) (job_id : String),
        process_transcription_job_start_phase env (.error e) job_id = false) := by
  refine ⟨?_, ?_, ?_, ?_⟩
  · intro env job_id status pt ed job hpost
    rcases hpub : env.publish_result with e | u <;>
      simp [update_job_status_api, update_job_status_api_try, hpost, hpub,
        Bind.bind, Except.bind, Pure.pure, Except.pure]
  · intro env job_id status pt ed e hpost
    simp [update_job_status_api, update_job_status_api_try, hpost,
      Bind.bind, Except.bind]
  · intro env job job_id
    rfl
  · intro env e job_id
    rfl

/-- Witness for C10: with the store up and the Event Bus down, the update
still returns the job; with the store down it returns `None`; the caller
continues in both cases. -/
theorem C10_update_job_status_api_witness :
    update_job_status_api updateEnvBusDown "J1" "processing" none none
        = some startedJobCx
    ∧ update_job_status_api updateEnvStoreDown "J1" "processing" none none = none
    ∧ process_transcription_job_start_phase updateEnvStoreDown
        (.ok startedJobCx) "J1" = true :=
  ⟨C10_update_job_status_api_never_raises.1 updateEnvBusDown "J1" "processing"
      none none startedJobCx rfl,
   C10_update_job_status_api_never_raises.2.1 updateEnvStoreDown "J1" "processing"
      none none { msg := "store down" } rfl,
   C10_update_job_status_api_never_raises.2.2.1 updateEnvStoreDown startedJobCx "J1"⟩

/-- C7 counterexample: `mark_job_completed` stamps `completed_at` with the
wall clock at the call, not with `started_at + processing_time` — completing
a job whose `started_at` is `0` at clock time `100` with
`processing_time = 2.5` leaves `completed_at = 100 ≠ 0 + 2.5` (and hence
`processing_time_seconds ≠ completed_at - started_at`). -/
theorem C7_completion_counterexample :
    startedJobCx.started_at = some 0
    ∧ (mark_job_completed startedJobCx (5 / 2) 100).completed_at = some 100
    ∧ (mark_job_completed startedJobCx (5 / 2) 100).completed_at
        ≠ some (0 + 5 / 2) := by
  refine ⟨rfl, rfl, ?_⟩
  simp [mark_job_completed, startedJobCx]
  norm_num

/-- C7 amended: `mark_job_completed(J, t)` sets `status = completed`,
`processing_time_seconds = t` and `completed_at` to the wall clock at the
call (the store does not derive it from `started_at + t`); and
`processing_time_seconds` is set only by the completion transition —
`mark_job_started` and `mark_job_failed` leave it unchanged, and the retry
reset clears it. -/
theorem C7_completion_postcondition_amended :
    (∀ (j : Job) (t now : ℚ),
        (mark_job_completed j t now).status = .completed
        ∧ (mark_job_completed j t now).processing_time_seconds = some t
        ∧ (mark_job_completed j t now).completed_at = some now)
  ∧ (∀ (j : Job) (now : ℚ),
        (mark_job_started j now).processing_time_seconds
          = j.processing_time_seconds)
  ∧ (∀ (j : Job) (e : String) (now : ℚ),
        (mark_job_failed j e now).processing_time_seconds
          = j.processing_time_seconds)
  ∧ (∀ j j2 : Job, retry_reset j = .ok j2 →
        j2.processing_time_seconds = none) := by
  refine ⟨fun j t now => ⟨rfl, rfl, rfl⟩, fun j now => rfl, fun j e now => rfl,
    fun j j2 h => ?_⟩
  unfold retry_reset at h
  by_cases hs : j.status = .failed
  · simp [hs] at h
    simp [← h]
  · simp [hs] at h

/-- Witness for C7 amended at concrete inputs, including the retry-reset
conjunct applied to a concrete failed job. -/
theorem C7_completion_postcondition_amended_witness :
    (mark_job_completed startedJobCx (5 / 2) 100).processing_time_seconds
        = some (5 / 2)
    ∧ ({ failedJobCx with
          status := .pending,
          started_at := none,
          completed_at := none,
          processing_time_seconds := none,
          error_details := none } : Job).processing_time_seconds = none :=
  ⟨(C7_completion_postcondition_amended.1 startedJobCx (5 / 2) 100).2.1,
   C7_completion_postcondition_amended.2.2.2 failedJobCx _ rfl⟩

/-- C2 counterexample: the store transitions are not guarded — calling
`mark_job_started` on an already-completed job flips its status back to
`processing`, a step the claimed chain
`pending → processing → {completed | failed}` (with `failed → pending` only
via retry) does not allow. -/
theorem C2_status_monotonicity_counterexample :
    ¬ claimedStatusStep completedJobCx.status (.markStarted 5)
        (applyStoreOp completedJobCx (.markStarted 5)).status := by
  decide

/-- C2 amended: the status monotonicity of the claim holds for every
operation applied under the workers' call discipline (`mark_started` only on
a pending job, `mark_completed`/`mark_failed` only on a processing job;
unguarded calls on other statuses can move a job backwards).  The retry
transition behaves exactly as claimed unconditionally: it succeeds precisely
on a failed job, resetting the status to pending and clearing `started_at`,
`completed_at`, `processing_time_seconds` and `error_details`, and rejects
any non-failed job with HTTP 400. -/
theorem C2_status_monotonicity_amended :
    (∀ (j : Job) (op : StoreOp), storeOpPrecond j op →
        claimedStatusStep j.status op (applyStoreOp j op).status)
  ∧ (∀ j : Job, j.status = .failed →
        retry_reset j = .ok { j with
          status := .pending,
          started_at := none,
          completed_at := none,
          processing_time_seconds := none,
          error_details := none })
  ∧ (∀ j : Job, j.status ≠ .failed → retry_reset j = .error 400) := by
  refine ⟨?_, ?_, ?_⟩
  · intro j op hpre
    cases op with
    | markStarted now =>
      simp only [storeOpPrecond] at hpre
      simp [claimedStatusStep, chainStep, applyStoreOp, mark_job_started,
        hpre, statusRank]
    | markCompleted t now =>
      simp only [storeOpPrecond] at hpre
      simp [claimedStatusStep, chainStep, applyStoreOp, mark_job_completed,
        hpre, statusRank]
    | markFailed e now =>
      simp only [storeOpPrecond] at hpre
      simp [claimedStatusStep, chainStep, applyStoreOp, mark_job_failed,
        hpre, statusRank]
    | retry =>
      by_cases hs : j.status = .failed
      · right
        simp [applyStoreOp, retry_reset, hs]
      · left
        simp [applyStoreOp, retry_reset, hs, chainStep]
  · intro j hs
    simp [retry_reset, hs]
  · intro j hs
    simp [retry_reset, hs]

/-- Witness for C2 amended: starting a concrete pending job is a chain step,
and retrying a concrete failed job resets it to a cleared pending row. -/
theorem C2_status_monotonicity_amended_witness :
    claimedStatusStep (pendingJob "J1" "V1" 0).status (.markStarted 5)
        (applyStoreOp (pendingJob "J1" "V1" 0) (.markStarted 5)).status
    ∧ retry_reset failedJobCx = .ok { failedJobCx with
        status := .pending,
        started_at := none,
        completed_at := none,
        processing_time_seconds := none,
        error_details := none } :=
  ⟨C2_status_monotonicity_amended.1 (pendingJob "J1" "V1" 0) (.markStarted 5)
      (by decide),
   C2_status_monotonicity_amended.2.1 failedJobCx (by decide)⟩

/-- The running minimum computed by `firstByCreatedAt` is the seed or one of
the list elements. -/
theorem foldl_minCreated_mem (js : List Job) (a : Job) :
    js.foldl (fun best k => if k.created_at < best.created_at then k else best) a
        = a
    ∨ js.foldl (fun best k => if k.created_at < best.created_at then k else best) a
        ∈ js := by
  induction js generalizing a with
  | nil => left; rfl
  | cons k ks ih =>
    simp only [List.foldl_cons]
    rcases ih (if k.created_at < a.created_at then k else a) with h | h
    · rw [h]
      by_cases hk : k.created_at < a.created_at
      · right; simp [hk]
      · left; simp [hk]
    · right; exact List.mem_cons_of_mem _ h

/-- The running minimum is no later than the seed and than every element. -/
theorem foldl_minCreated_le (js : List Job) (a : Job) :
    (js.foldl (fun best k => if k.created_at < best.created_at then k else best) a).created_at
        ≤ a.created_at
    ∧ ∀ k ∈ js,
      (js.foldl (fun best k => if k.created_at < best.created_at then k else best) a).created_at
          ≤ k.created_at := by
  induction js generalizing a with
  | nil => exact ⟨le_refl _, by simp⟩
  | cons k ks ih =>
    simp only [List.foldl_cons]
    obtain ⟨h1, h2⟩ := ih (if k.created_at < a.created_at then k else a)
    have hseed : (if k.created_at < a.created_at then k else a).created_at
        ≤ a.created_at ∧
        (if k.created_at < a.created_at then k else a).created_at
          ≤ k.created_at := by
      by_cases hk : k.created_at < a.created_at
      · simp [hk]; exact le_of_lt hk
      · simp [hk]; exact le_of_not_lt hk
    exact ⟨le_trans h1 hseed.1, by
      intro m hm
      rcases List.mem_cons.mp hm with rfl | hm
      · exact le_trans h1 hseed.2
      · exact h2 m hm⟩

/-- C9: `claim_next` (`get_next_transcription_job`) returns the `none`
sentinel exactly when no job in the table is pending, and any job it returns
is a pending job of the table whose `created_at` is no later than that of
every pending job (FIFO, oldest first, no priority). -/
theorem C9_fifo_claim_order :
    ∀ db : List Job,
      (get_next_transcription_job db = none ↔ ∀ j ∈ db, j.status ≠ .pending)
      ∧ ∀ j : Job, get_next_transcription_job db = some j →
          j ∈ db ∧ j.status = .pending ∧
            ∀ k ∈ db, k.status = .pending → j.created_at ≤ k.created_at := by
  intro db
  constructor
  · constructor
    · intro h j hj hs
      unfold get_next_transcription_job at h
      rcases hf : db.filter (fun j => j.status == .pending) with _ | ⟨x, xs⟩
      · have := List.filter_eq_nil_iff.mp hf j hj
        simp [hs] at this
      · rw [hf] at h
        simp [firstByCreatedAt] at h
    · intro h
      unfold get_next_transcription_job
      have : db.filter (fun j => j.status == .pending) = [] := by
        apply List.filter_eq_nil_iff.mpr
        intro a ha
        simp [h a ha]
      rw [this]
      rfl
  · intro j hj
    unfold get_next_transcription_job at hj
    rcases hf : db.filter (fun j => j.status == .pending) with _ | ⟨x, xs⟩
    · rw [hf] at hj; simp [firstByCreatedAt] at hj
    · rw [hf] at hj
      simp only [firstByCreatedAt, Option.some.injEq] at hj
      have hmem : j ∈ db.filter (fun j => j.status == .pending) := by
        rw [hf]
        rcases foldl_minCreated_mem xs x with h | h
        · rw [← hj, h]; exact List.mem_cons_self x xs
        · rw [← hj]; exact List.mem_cons_of_mem x h
      obtain ⟨hjdb, hjp⟩ := List.mem_filter.mp hmem
      refine ⟨hjdb, by simpa using hjp, ?_⟩
      intro k hk hkp
      have hkf : k ∈ db.filter (fun j => j.status == .pending) :=
        List.mem_filter.mpr ⟨hk, by simp [hkp]⟩
      rw [hf] at hkf
      obtain ⟨h1, h2⟩ := foldl_minCreated_le xs x
      rcases List.mem_cons.mp hkf with rfl | hkf
      · rw [← hj]; exact h1
      · rw [← hj]; exact h2 k hkf

/-- Witness for C9's second conjunct: on the three-pending-job scenario
table, the claimed job is `J1`, pending, and the oldest pending job. -/
theorem C9_fifo_claim_order_witness :
    get_next_transcription_job pendingScenarioDb = some (pendingJob "J1" "V1" 0)
    ∧ pendingJob "J1" "V1" 0 ∈ pendingScenarioDb
    ∧ (pendingJob "J1" "V1" 0).status = .pending
    ∧ ∀ k ∈ pendingScenarioDb, k.status = .pending →
        (pendingJob "J1" "V1" 0).created_at ≤ k.created_at := by
  have h : get_next_transcription_job pendingScenarioDb
      = some (pendingJob "J1" "V1" 0) := by decide
  have := (C9_fifo_claim_order pendingScenarioDb).2 (pendingJob "J1" "V1" 0) h
  exact ⟨h, this.1, this.2.1, this.2.2⟩

/-- The dedup invariant holds of a freshly constructed queue manager. -/
theorem QMInv_init : QMInv QMInit := by
  refine ⟨List.nodup_nil, List.nodup_nil, ?_, List.nodup_nil, ?_⟩ <;>
    simp [QMInit]

/-- Every atomic queue-manager transition preserves the dedup invariant. -/
theorem QMInv_preserved {s s2 : QMState} (hinv : QMInv s) (hstep : QMStep s s2) :
    QMInv s2 := by
  obtain ⟨hq, hi, hdisj, ha, hiff⟩ := hinv
  cases hstep with
  | add job_id =>
    cases job_id with
    | none => exact ⟨hq, hi, hdisj, ha, hiff⟩
    | some id =>
      by_cases hmem : id ∈ s.active_jobs
      · simpa [add_job, hmem] using ⟨hq, hi, hdisj, ha, hiff⟩
      · have hnq : id ∉ s.job_queue := fun h => hmem ((hiff id).mpr (Or.inl h))
        have hni : id ∉ s.inflight := fun h => hmem ((hiff id).mpr (Or.inr h))
        simp only [add_job, hmem, if_neg, ite_false]
        refine ⟨?_, hi, ?_, ?_, ?_⟩
        · exact List.nodup_append.mpr ⟨hq, List.nodup_singleton id, by
            intro x hx hx2
            simp at hx2
            exact hnq (hx2 ▸ hx)⟩
        · intro x ⟨hx1, hx2⟩
          rcases List.mem_append.mp hx1 with h | h
          · exact hdisj x ⟨h, hx2⟩
          · simp at h
            exact hni (h ▸ hx2)
        · exact List.nodup_append.mpr ⟨ha, List.nodup_singleton id, by
            intro x hx hx2
            simp at hx2
            exact hmem (hx2 ▸ hx)⟩
        · intro x
          have := hiff x
          simp only [List.mem_append, List.mem_singleton]
          tauto
  | take id rest hqe =>
    have hidq : id ∈ s.job_queue := by rw [hqe]; exact List.mem_cons_self id rest
    have hrest : rest.Nodup ∧ id ∉ rest := by
      have := hqe ▸ hq
      exact ⟨this.of_cons, (List.nodup_cons.mp this).1⟩
    have hni : id ∉ s.inflight := fun h => hdisj id ⟨hidq, h⟩
    refine ⟨hrest.1, ?_, ?_, ha, ?_⟩
    · exact List.nodup_append.mpr ⟨hi, List.nodup_singleton id, by
        intro x hx hx2
        simp at hx2
        exact hni (hx2 ▸ hx)⟩
    · intro x ⟨hx1, hx2⟩
      rcases List.mem_append.mp hx2 with h | h
      · exact hdisj x ⟨by rw [hqe]; exact List.mem_cons_of_mem id hx1, h⟩
      · simp at h
        exact hrest.2 (h ▸ hx1)
    · intro x
      have := hiff x
      rw [hqe] at this
      simp only [worker_take, List.mem_append, List.mem_singleton,
        List.mem_cons] at this ⊢
      tauto
  | finish id outcome hmem =>
    have hcore : QMInv (finish_job s id) := by
      have hnq : id ∉ s.job_queue := fun h => hdisj id ⟨h, hmem⟩
      refine ⟨hq, hi.erase id, ?_, ha.erase id, ?_⟩
      · intro x ⟨hx1, hx2⟩
        exact hdisj x ⟨hx1, List.mem_of_mem_erase hx2⟩
      · intro x
        rw [finish_job]
        simp only
        rw [ha.mem_erase_iff, hi.mem_erase_iff, hiff x]
        constructor
        · rintro ⟨hne, h | h⟩
          · exact Or.inl h
          · exact Or.inr ⟨hne, h⟩
        · rintro (h | ⟨hne, h⟩)
          · exact ⟨fun he => hnq (he ▸ h), Or.inl h⟩
          · exact ⟨hne, Or.inr h⟩
    cases outcome <;> exact hcore

/-- Every reachable queue-manager state satisfies the dedup invariant. -/
theorem QMInv_reachable {s : QMState} (h : QMReachable s) : QMInv s := by
  induction h with
  | refl => exact QMInv_init
  | tail hsteps hstep ih => exact QMInv_preserved ih hstep

/-- C1: `add_job` is a logged no-op whenever the job id is already active
(queued or being processed); in every reachable state each job id has at most
one occurrence among the queued and in-flight jobs combined, so at most one
execution of `processor_fn` is in flight per id at any time; and under double
delivery of a fresh id (event path and poll path both calling `add_job`), the
second call changes nothing and exactly one queue entry exists for that id —
`processor_fn` will be invoked exactly once for it while it stays active. -/
theorem C1_add_job_dedup_at_most_one_active :
    (∀ (s : QMState) (id : String), id ∈ s.active_jobs →
        add_job s (some id) = s)
  ∧ (∀ s : QMState, QMReachable s → ∀ id : String,
        s.job_queue.count id + s.inflight.count id ≤ 1)
  ∧ (∀ (s : QMState) (id : String), QMInv s → id ∉ s.active_jobs →
        add_job (add_job s (some id)) (some id) = add_job s (some id)
        ∧ (add_job s (some id)).job_queue.count id = 1
        ∧ (add_job s (some id)).inflight.count id = 0) := by
  refine ⟨?_, ?_, ?_⟩
  · intro s id h
    simp [add_job, h]
  · intro s hreach id
    obtain ⟨hq, hi, hdisj, ha, hiff⟩ := QMInv_reachable hreach
    by_cases hmem : id ∈ s.job_queue
    · have h0 : s.inflight.count id = 0 :=
        List.count_eq_zero.mpr (fun h => hdisj id ⟨hmem, h⟩)
      have h1 : s.job_queue.count id ≤ 1 :=
        List.nodup_iff_count_le_one.mp hq id
      omega
    · have h0 : s.job_queue.count id = 0 := List.count_eq_zero.mpr hmem
      have h1 : s.inflight.count id ≤ 1 :=
        List.nodup_iff_count_le_one.mp hi id
      omega
  · intro s id hinv hna
    obtain ⟨hq, hi, hdisj, ha, hiff⟩ := hinv
    have hnq : id ∉ s.job_queue := fun h => hna ((hiff id).mpr (Or.inl h))
    have hni : id ∉ s.inflight := fun h => hna ((hiff id).mpr (Or.inr h))
    have h1 : add_job s (some id)
        = { job_queue := s.job_queue ++ [id],
            active_jobs := s.active_jobs ++ [id],
            inflight := s.inflight } := by
      simp [add_job, hna]
    refine ⟨?_, ?_, ?_⟩
    · rw [h1]
      simp [add_job]
    · rw [h1]
      simp [List.count_append, List.count_eq_zero.mpr hnq]
    · rw [h1]
      simpa using List.count_eq_zero.mpr hni

/-- Witness for C1 at concrete states: re-adding active `"a"` is a no-op,
the initial state has at most one `"a"` in flight, and double delivery of
`"a"` into the fresh manager enqueues it exactly once. -/
theorem C1_add_job_dedup_at_most_one_active_witness :
    add_job qmStateA (some "a") = qmStateA
    ∧ QMInit.job_queue.count "a" + QMInit.inflight.count "a" ≤ 1
    ∧ add_job (add_job QMInit (some "a")) (some "a") = add_job QMInit (some "a")
    ∧ (add_job QMInit (some "a")).job_queue.count "a" = 1 :=
  ⟨C1_add_job_dedup_at_most_one_active.1 qmStateA "a" (by decide),
   C1_add_job_dedup_at_most_one_active.2.1 QMInit Relation.ReflTransGen.refl "a",
   (C1_add_job_dedup_at_most_one_active.2.2 QMInit "a" QMInv_init (by decide)).1,
   (C1_add_job_dedup_at_most_one_active.2.2 QMInit "a" QMInv_init (by decide)).2.1⟩

/-- The lock invariant holds at process start. -/
theorem PoolInv_init : PoolInv PoolInit := by
  intro t h
  rcases h with h | h <;> simp [PoolInit] at h

/-- Every interleaved pool step preserves the lock invariant: a thread inside
either `with _model_lock:` block owns the lock. -/
theorem PoolInv_preserved {s s2 : PoolState} (hinv : PoolInv s)
    (hstep : PoolStep s s2) : PoolInv s2 := by
  cases hstep with
  | beginJob t hidle hfree =>
    intro u hu
    by_cases hut : u = t
    · subst hut; rfl
    · simp only [Function.update_noteq hut] at hu
      have := hinv u hu
      rw [hfree] at this
      exact absurd this (by simp)
  | modelLoaded t hload =>
    intro u hu
    by_cases hut : u = t
    · subst hut
      simp [Function.update_same] at hu
    · simp only [Function.update_noteq hut] at hu
      have h1 := hinv u hu
      have h2 := hinv t (Or.inl hload)
      rw [h1] at h2
      simp at h2
      exact absurd h2 hut
  | acquireForInference t hprep hfree =>
    intro u hu
    by_cases hut : u = t
    · subst hut; rfl
    · simp only [Function.update_noteq hut] at hu
      have := hinv u hu
      rw [hfree] at this
      exact absurd this (by simp)
  | releaseAfterInference t hinf =>
    intro u hu
    by_cases hut : u = t
    · subst hut
      simp [Function.update_same] at hu
    · simp only [Function.update_noteq hut] at hu
      have h1 := hinv u hu
      have h2 := hinv t (Or.inr hinf)
      rw [h1] at h2
      simp at h2
      exact absurd h2 hut
  | endJob t hclean =>
    intro u hu
    by_cases hut : u = t
    · subst hut
      simp [Function.update_same] at hu
    · simp only [Function.update_noteq hut] at hu
      exact hinv u hu

/-- Every reachable pool state satisfies the lock invariant. -/
theorem PoolInv_reachable {s : PoolState} (h : PoolReachable s) : PoolInv s := by
  induction h with
  | refl => exact PoolInv_init
  | tail hsteps hstep ih => exact PoolInv_preserved ih hstep

/-- C6: serialized inference — in every reachable pool state, for any worker
count and interleaving, no two threads are simultaneously inside the
inference block of `transcribe_with_whisperx`: a thread doing inference holds
`_model_lock` for the full duration, and the lock has at most one owner, so
two threads at the inference phase must be the same thread. -/
theorem C6_serialized_inference :
    ∀ s : PoolState, PoolReachable s →
      (∀ t : Nat, s.phase t = .inference → s.lockOwner = some t)
      ∧ ∀ t u : Nat, s.phase t = .inference → s.phase u = .inference → t = u := by
  intro s hreach
  have hinv := PoolInv_reachable hreach
  refine ⟨fun t ht => hinv t (Or.inr ht), fun t u ht hu => ?_⟩
  have h1 := hinv t (Or.inr ht)
  have h2 := hinv u (Or.inr hu)
  rw [h1] at h2
  exact (Option.some.injEq t u ▸ h2).symm ▸ rfl

/-- Witness for C6: after thread 0 loads the model, prepares, and enters the
inference block, the reached state is genuinely reachable and the theorem
yields that thread 0 owns `_model_lock` and is the only thread at inference. -/
theorem C6_serialized_inference_witness :
    poolWitnessState.lockOwner = some 0 ∧ (0 : Nat) = 0 := by
  have h1 : PoolStep PoolInit
      { lockOwner := some 0,
        phase := Function.update PoolInit.phase 0 .loadingModel } :=
    PoolStep.beginJob PoolInit 0 rfl rfl
  have h2 : PoolStep
      { lockOwner := some 0,
        phase := Function.update PoolInit.phase 0 .loadingModel }
      { lockOwner := none,
        phase := Function.update
          (Function.update PoolInit.phase 0 .loadingModel) 0 .preparing } :=
    PoolStep.modelLoaded _ 0 (by simp [Function.update_same])
  have h3 : PoolStep
      { lockOwner := none,
        phase := Function.update
          (Function.update PoolInit.phase 0 .loadingModel) 0 .preparing }
      poolWitnessState :=
    PoolStep.acquireForInference _ 0 (by simp [Function.update_same]) rfl
  have hreach : PoolReachable poolWitnessState :=
    Relation.ReflTransGen.tail (Relation.ReflTransGen.tail
      (Relation.ReflTransGen.tail Relation.ReflTransGen.refl h1) h2) h3
  have hph : poolWitnessState.phase 0 = .inference := by
    simp [poolWitnessState, Function.update_same]
  exact ⟨(C6_serialized_inference poolWitnessState hreach).1 0 hph,
    (C6_serialized_inference poolWitnessState hreach).2 0 0 hph hph⟩

/-- C5: the claimed degradation to polling does not happen.
`run_event_based_worker` passes the keyword argument `poll_interval` (and a
second positional argument to `start`) that `TranscriptionQueueManager` does
not accept, so the very first statement of the `try` raises `TypeError`; the
broad `except Exception` swallows it and returns.  Evaluated on the spec's
scenario (three pre-inserted pending jobs, every Event Bus connection attempt
raising): the worker does not crash, but its queue manager is not running,
no job is ever handed to `process_transcription_job`, and all three jobs are
still pending — they are never completed via any polling path. -/
theorem C5_degradation_to_polling_code_bug :
    call_raises_type_error tqm_init_params run_event_based_worker_init_kwargs
        = true
    ∧ run_event_based_worker_start_args ≠ tqm_start_arity
    ∧ (run_event_based_worker_connect_failing pendingScenarioDb).raised = false
    ∧ (run_event_based_worker_connect_failing pendingScenarioDb).init_type_error
        = true
    ∧ (run_event_based_worker_connect_failing
        pendingScenarioDb).queue_manager_running = false
    ∧ (run_event_based_worker_connect_failing pendingScenarioDb).processed = []
    ∧ (run_event_based_worker_connect_failing pendingScenarioDb).store
        = pendingScenarioDb
    ∧ pendingScenarioDb.all (fun j => j.status == JobStatus.pending) = true := by
  refine ⟨by decide, by decide, by decide, by decide, by decide, by decide,
    by decide, by decide⟩

/-- Flattening `n` copies of a one-character chunk. -/
theorem flatten_replicate_singleton (n : Nat) (c : Char) :
    (List.replicate n [c]).flatten = List.replicate n c := by
  induction n with
  | zero => rfl
  | succ n ih => simp [List.replicate_succ, ih]

/-- `json.dumps` leaves the letter `a` unescaped. -/
theorem json_escape_char_a : json_escape_char 'a' = ['a'] := by decide

/-- Escaping a run of `a`s changes nothing. -/
theorem json_escape_replicate_a (n : Nat) :
    json_escape (List.replicate n 'a') = List.replicate n 'a' := by
  unfold json_escape
  rw [List.map_replicate, json_escape_char_a, flatten_replicate_singleton]

/-- Escaping distributes over concatenation. -/
theorem json_escape_append (s t : List Char) :
    json_escape (s ++ t) = json_escape s ++ json_escape t := by
  simp [json_escape]

/-- The truncation marker contains only unescaped printable ASCII. -/
theorem json_escape_marker :
    json_escape truncated_marker = truncated_marker := by decide

/-- The key `"traceback"` is unescaped printable ASCII. -/
theorem json_escape_traceback_key :
    json_escape tracebackKey = tracebackKey := by decide

/-- The key `"foo"` is unescaped printable ASCII. -/
theorem json_escape_foo : json_escape ("foo".data) = "foo".data := by decide

/-- Serialization of a one-field payload. -/
theorem json_dumps_single (k : List Char) (v : JVal) :
    json_dumps_payload [(k, v)]
      = '\x7b' :: (json_dumps_str k ++ ':' :: ' ' :: json_dumps_val v)
          ++ ['\x7d'] := by
  simp [json_dumps_payload, List.intercalate, List.intersperse]

/-- Length of a one-string-field payload's serialization. -/
theorem json_dumps_single_str_length (k s : List Char) :
    (json_dumps_payload [(k, JVal.str s)]).length
      = (json_escape k).length + (json_escape s).length + 8 := by
  rw [json_dumps_single]
  simp [json_dumps_str, json_dumps_val]
  omega

/-- The counterexample payload serializes to 100012 characters. -/
theorem publishCex_dumps_length :
    (json_dumps_payload publishCex).length = 100012 := by
  have h := json_dumps_single_str_length ("foo".data) (List.replicate 100001 'a')
  rw [json_escape_foo, json_escape_replicate_a] at h
  have h3 : ("foo".data : List Char).length = 3 := by decide
  rw [show publishCex
      = [(("foo".data : List Char), JVal.str (List.replicate 100001 'a'))]
    from rfl, h, h3, List.length_replicate]

/-- A one-field payload under any other key passes truncation unchanged. -/
theorem truncate_payload_single_other (k : List Char) (v : JVal)
    (h1 : (tracebackKey == k) = false) (h2 : (errorDetailsKey == k) = false) :
    truncate_payload [(k, v)] = [(k, v)] := by
  simp [truncate_payload, List.lookup, h1, h2]

/-- `"foo"` is not the traceback key. -/
theorem foo_not_traceback :
    (tracebackKey == ("foo".data : List Char)) = false := by decide

/-- `"foo"` is not the error-details key. -/
theorem foo_not_error_details :
    (errorDetailsKey == ("foo".data : List Char)) = false := by decide

/-- The two truncation keys differ. -/
theorem edk_not_tbk : (errorDetailsKey == tracebackKey) = false := by decide

/-- The counterexample payload is untouched by the truncation step. -/
theorem truncate_publishCex : truncate_payload publishCex = publishCex :=
  truncate_payload_single_other _ _ foo_not_traceback foo_not_error_details

/-- Truncation of a pure-traceback payload rewrites exactly the traceback
value. -/
theorem truncate_tracebackPayload (n : Nat) :
    truncate_payload (tracebackPayload n)
      = [(tracebackKey,
          JVal.str ((List.replicate n 'a').take 1000 ++ truncated_marker))] := by
  simp [truncate_payload, tracebackPayload, List.lookup, truncate_tb_val,
    truncate_traceback, edk_not_tbk]

/-- A pure-traceback payload of `n` `a`s serializes to `n + 17` characters. -/
theorem tracebackPayload_dumps_length (n : Nat) :
    (json_dumps_payload (tracebackPayload n)).length = n + 17 := by
  have h := json_dumps_single_str_length tracebackKey (List.replicate n 'a')
  rw [json_escape_traceback_key, json_escape_replicate_a] at h
  have h9 : tracebackKey.length = 9 := by decide
  rw [show tracebackPayload n
      = [(tracebackKey, JVal.str (List.replicate n 'a'))] from rfl, h, h9,
    List.length_replicate]
  omega

/-- After truncation, the pure-traceback payload serializes to 1032
characters. -/
theorem truncated_tracebackPayload_dumps_length (n : Nat) (h : 1000 ≤ n) :
    (json_dumps_payload (truncate_payload (tracebackPayload n))).length
      = 1032 := by
  rw [truncate_tracebackPayload]
  rw [json_dumps_single_str_length, json_escape_traceback_key,
    List.take_replicate, inf_eq_left.mpr h, json_escape_append,
    json_escape_replicate_a, json_escape_marker]
  have h9 : tracebackKey.length = 9 := by decide
  have h15 : truncated_marker.length = 15 := by decide
  rw [List.length_append, List.length_replicate, h9, h15]

/-- C3 counterexample: `publish_event` truncates only `traceback` fields, so
a payload whose 100001-character string sits under the key `"foo"` is
published unmodified — the published message is 100012 characters, above the
100 KB bound, with no truncation applied. -/
theorem C3_truncation_counterexample :
    (json_dumps_payload publishCex).length > 100000
    ∧ publish_event_message publishCex = json_dumps_payload publishCex
    ∧ (publish_event_message publishCex).length > 100000 := by
  have h1 := publishCex_dumps_length
  have h2 : publish_event_message publishCex = json_dumps_payload publishCex := by
    simp only [publish_event_message, truncate_publishCex, ite_self]
  exact ⟨by omega, h2, by rw [h2]; omega⟩

/-- C3 amended: the truncation applies only to `traceback` fields.  For an
oversized payload whose bulk is a `traceback` string (length ≥ 1000), the
published message is within the 100 KB bound and contains the truncation
marker, and publishing the already-truncated payload again produces the same
message (no further growth); a payload with no `traceback` or
`error_details` field is always published as its plain serialization (even
when oversized); and the string truncation itself is idempotent on strings
of length ≥ 1000. -/
theorem C3_truncation_amended :
    (∀ n : Nat, 1000 ≤ n →
        (json_dumps_payload (tracebackPayload n)).length > 100000 →
        (publish_event_message (tracebackPayload n)).length ≤ 100000
        ∧ ∃ pre post, publish_event_message (tracebackPayload n)
            = pre ++ truncated_marker ++ post)
  ∧ (∀ n : Nat, 1000 ≤ n →
        (json_dumps_payload (tracebackPayload n)).length > 100000 →
        publish_event_message (truncate_payload (tracebackPayload n))
          = publish_event_message (tracebackPayload n))
  ∧ (∀ p : Payload, List.lookup tracebackKey p = none →
        List.lookup errorDetailsKey p = none →
        publish_event_message p = json_dumps_payload p)
  ∧ (∀ s : List Char, 1000 ≤ s.length →
        truncate_traceback (truncate_traceback s) = truncate_traceback s) := by
  refine ⟨?_, ?_, ?_, ?_⟩
  · intro n hn hbig
    have hpub : publish_event_message (tracebackPayload n)
        = json_dumps_payload (truncate_payload (tracebackPayload n)) := by
      simp only [publish_event_message]
      rw [if_pos hbig]
    constructor
    · rw [hpub, truncated_tracebackPayload_dumps_length n hn]
      norm_num
    · refine ⟨'\x7b' :: (json_dumps_str tracebackKey
          ++ ':' :: ' ' :: '\"' :: List.replicate 1000 'a'), ['\"', '\x7d'], ?_⟩
      rw [hpub, truncate_tracebackPayload, json_dumps_single,
        List.take_replicate, inf_eq_left.mpr hn]
      simp only [json_dumps_val, json_dumps_str, json_escape_append,
        json_escape_replicate_a, json_escape_marker]
      simp only [List.cons_append, List.append_assoc, List.singleton_append,
        List.nil_append]
  · intro n hn hbig
    have hsmall := truncated_tracebackPayload_dumps_length n hn
    have hL : publish_event_message (truncate_payload (tracebackPayload n))
        = json_dumps_payload (truncate_payload (tracebackPayload n)) := by
      simp only [publish_event_message]
      rw [if_neg (by omega)]
    have hR : publish_event_message (tracebackPayload n)
        = json_dumps_payload (truncate_payload (tracebackPayload n)) := by
      simp only [publish_event_message]
      rw [if_pos hbig]
    rw [hL, hR]
  · intro p h1 h2
    have ht : truncate_payload p = p := by
      simp [truncate_payload, h1, h2]
    simp only [publish_event_message, ht, ite_self]
  · intro s hs
    unfold truncate_traceback
    rw [List.take_append_eq_append_take, List.take_take]
    have h1 : (s.take 1000).length = 1000 := by
      rw [List.length_take]
      omega
    rw [h1]
    simp

/-- Witness for C3 amended: the spec's 100 KB-ish scenario at `n = 100000`
(an oversized pure-traceback payload) publishes within the bound with the
marker, and the empty payload publishes as its plain serialization. -/
theorem C3_truncation_amended_witness :
    (publish_event_message (tracebackPayload 100000)).length ≤ 100000
    ∧ (∃ pre post, publish_event_message (tracebackPayload 100000)
        = pre ++ truncated_marker ++ post)
    ∧ publish_event_message ([] : Payload) = json_dumps_payload [] := by
  have hbig : (json_dumps_payload (tracebackPayload 100000)).length > 100000 := by
    rw [tracebackPayload_dumps_length]
    norm_num
  have h := C3_truncation_amended.1 100000 (by norm_num) hbig
  exact ⟨h.1, h.2, C3_truncation_amended.2.2.1 [] rfl rfl⟩
